import Mathlib

/-!
# Verification of the InspIRCd account extension-item codecs (`src/modules/account.h`)

A shallow embedding of the timestamped field codecs (`TSExtItem`, `TSBoolExtItem`,
`TSIntExtItem`, `TSStringExtItem`), the `AccountDBEntry` record and the (abstract)
`AccountDBProvider::AddAccount` operation.

C++ `std::string` values are modelled as `List Char`; `time_t` and `signed int`
are modelled as unbounded `Int` (no input in scope approaches the 64-bit range,
and `atol`/`atoi` overflow is undefined behaviour in the source language anyway).
The extension-item `get`/`set` pointer protocol is modelled by `Option`: a null
pointer returned from `get` is `none`.
-/

namespace Account

/-- C `isspace` on the default locale: space, tab, newline, vertical tab,
form feed, carriage return (character codes 32 and 9..13). -/
def isSpaceC (c : Char) : Bool :=
  c.toNat == 32 || (9 ≤ c.toNat && c.toNat ≤ 13)

/-- C `isdigit`: character codes 48..57. -/
def isDigitC (c : Char) : Bool :=
  48 ≤ c.toNat && c.toNat ≤ 57

/-- Numeric value of a decimal digit character. -/
def digitVal (c : Char) : Nat := c.toNat - 48

/-- Accumulate decimal digits from the front of the list, stopping at the
first non-digit, as `strtol`'s digit loop does. -/
def parseDigits : List Char → Nat → Nat
  | [], acc => acc
  | c :: cs, acc => if isDigitC c then parseDigits cs (10 * acc + digitVal c) else acc

/-- Sign handling of `strtol` after whitespace has been skipped: one optional
sign character, then decimal digits. -/
def atolSigned : List Char → Int
  | [] => 0
  | c :: rest =>
    if c == '-' then -(parseDigits rest 0 : Int)
    else if c == '+' then (parseDigits rest 0 : Int)
    else (parseDigits (c :: rest) 0 : Int)

/-- C `atol` (equivalently `strtol(s, NULL, 10)` with errors ignored): skip
leading whitespace, consume one optional sign, then decimal digits; an input
with no digits yields 0. -/
def atol (s : List Char) : Int := atolSigned (s.dropWhile isSpaceC)

/-- C `atoi`; identical digit semantics to `atol` at our precision. -/
def atoi (s : List Char) : Int := atol s

/-- The character for a decimal digit `d < 10`. -/
def digitChar (d : Nat) : Char := Char.ofNat (d + 48)

/-- Decimal digits of a natural number, least significant first. -/
def natDigitsRev (n : Nat) : List Char :=
  if h : n < 10 then [digitChar n]
  else digitChar (n % 10) :: natDigitsRev (n / 10)
termination_by n
decreasing_by simp_wf; omega

/-- Decimal digits of a natural number, most significant first. -/
def natToDigits (n : Nat) : List Char := (natDigitsRev n).reverse

/-- InspIRCd `ConvToStr` on an integral value: the `std::ostream` decimal
rendering (optional leading minus, then digits). -/
def convToStr (i : Int) : List Char :=
  if i < 0 then '-' :: natToDigits i.natAbs else natToDigits i.natAbs

/-- Model of `std::string::find_first_of(' ')`: index of the first space, `none` for `npos`. -/
def find_first_of_space : List Char → Option Nat
  | [] => none
  | c :: cs => if c == ' ' then some 0 else (find_first_of_space cs).map (· + 1)

/- ### Basic facts about the decimal printer and `atol` -/

theorem isDigitC_digitChar {d : Nat} (h : d < 10) : isDigitC (digitChar d) = true := by
  interval_cases d <;> decide

theorem digitVal_digitChar {d : Nat} (h : d < 10) : digitVal (digitChar d) = d := by
  interval_cases d <;> decide

theorem natDigitsRev_ne_nil (n : Nat) : natDigitsRev n ≠ [] := by
  rw [natDigitsRev]
  split <;> simp

theorem mem_natDigitsRev {n : Nat} {c : Char} (h : c ∈ natDigitsRev n) :
    isDigitC c = true := by
  induction n using Nat.strong_induction_on with
  | _ n ih =>
    rw [natDigitsRev] at h
    split at h
    · simp at h
      subst h
      exact isDigitC_digitChar (by omega)
    · rcases List.mem_cons.mp h with h1 | h2
      · subst h1
        exact isDigitC_digitChar (Nat.mod_lt _ (by omega))
      · exact ih (n / 10) (Nat.div_lt_self (by omega) (by omega)) h2

theorem not_isSpaceC_of_isDigitC {c : Char} (h : isDigitC c = true) :
    isSpaceC c = false := by
  simp only [isDigitC, Bool.and_eq_true, decide_eq_true_eq] at h
  simp only [isSpaceC, Bool.or_eq_false_iff, Bool.and_eq_false_iff, beq_eq_false_iff_ne, ne_eq,
    decide_eq_false_iff_not, not_le]
  omega

theorem beq_space_eq_false_of_isDigitC {c : Char} (h : isDigitC c = true) :
    (c == ' ') = false := by
  have : c ≠ ' ' := fun hc => absurd h (by rw [hc]; decide)
  simpa using this

theorem beq_minus_eq_false_of_isDigitC {c : Char} (h : isDigitC c = true) :
    (c == '-') = false := by
  have : c ≠ '-' := fun hc => absurd h (by rw [hc]; decide)
  simpa using this

theorem beq_plus_eq_false_of_isDigitC {c : Char} (h : isDigitC c = true) :
    (c == '+') = false := by
  have : c ≠ '+' := fun hc => absurd h (by rw [hc]; decide)
  simpa using this

theorem parseDigits_append (l r : List Char) (a : Nat)
    (h : ∀ c ∈ l, isDigitC c = true) :
    parseDigits (l ++ r) a = parseDigits r (parseDigits l a) := by
  induction l generalizing a with
  | nil => rfl
  | cons c cs ih =>
    have hc : isDigitC c = true := h c (List.mem_cons_self _ _)
    simp only [List.cons_append, parseDigits, hc, if_true]
    exact ih _ fun x hx => h x (List.mem_cons_of_mem _ hx)

theorem parseDigits_natDigitsRev (n : Nat) (a : Nat) :
    parseDigits (natDigitsRev n).reverse a = a * 10 ^ (natDigitsRev n).length + n := by
  induction n using Nat.strong_induction_on generalizing a with
  | _ n ih =>
    rw [natDigitsRev]
    split
    · rename_i hlt
      simp only [List.reverse_cons, List.reverse_nil, List.nil_append, List.length_cons,
        List.length_nil, parseDigits, isDigitC_digitChar hlt, if_true,
        digitVal_digitChar hlt, pow_one]
      omega
    · rename_i hn
      simp only [List.reverse_cons, List.length_cons]
      rw [parseDigits_append _ _ _ (fun c hc => mem_natDigitsRev (List.mem_reverse.mp hc))]
      rw [ih (n / 10) (Nat.div_lt_self (by omega) (by omega))]
      have h10 : n % 10 < 10 := Nat.mod_lt _ (by omega)
      simp only [parseDigits, isDigitC_digitChar h10, if_true, digitVal_digitChar h10]
      calc 10 * (a * 10 ^ (natDigitsRev (n / 10)).length + n / 10) + n % 10
          = a * (10 ^ (natDigitsRev (n / 10)).length * 10) + (10 * (n / 10) + n % 10) := by
            ring
        _ = a * 10 ^ ((natDigitsRev (n / 10)).length + 1) + n := by
            rw [Nat.div_add_mod, pow_succ]

theorem parseDigits_natToDigits (n : Nat) : parseDigits (natToDigits n) 0 = n := by
  have := parseDigits_natDigitsRev n 0
  simpa [natToDigits] using this

theorem natToDigits_head_digit (n : Nat) :
    ∃ c cs, natToDigits n = c :: cs ∧ isDigitC c = true := by
  have hne : natToDigits n ≠ [] := by
    simp [natToDigits, natDigitsRev_ne_nil n]
  rcases hd : natToDigits n with _ | ⟨c, cs⟩
  · exact absurd hd hne
  · refine ⟨c, cs, rfl, ?_⟩
    have : c ∈ natToDigits n := by rw [hd]; exact List.mem_cons_self _ _
    exact mem_natDigitsRev (List.mem_reverse.mp this)

theorem atolSigned_cons_digit {c : Char} (cs : List Char) (hdig : isDigitC c = true) :
    atolSigned (c :: cs) = (parseDigits (c :: cs) 0 : Int) := by
  rw [atolSigned]
  rw [beq_minus_eq_false_of_isDigitC hdig, beq_plus_eq_false_of_isDigitC hdig]
  simp

theorem atol_natToDigits (n : Nat) : atol (natToDigits n) = (n : Int) := by
  obtain ⟨c, cs, hd, hdig⟩ := natToDigits_head_digit n
  rw [atol, hd]
  rw [List.dropWhile_cons_of_neg (by simp [not_isSpaceC_of_isDigitC hdig])]
  rw [atolSigned_cons_digit cs hdig, ← hd, parseDigits_natToDigits]

theorem atol_convToStr (i : Int) : atol (convToStr i) = i := by
  by_cases hi : i < 0
  · rw [convToStr, if_pos hi, atol]
    rw [List.dropWhile_cons_of_neg (by decide)]
    rw [atolSigned]
    simp only [if_pos (by decide : (('-' : Char) == '-') = true)]
    rw [parseDigits_natToDigits]
    omega
  · rw [convToStr, if_neg hi, atol_natToDigits]
    omega

/- ### Serialize formats of the host daemon (`SerializeFormat` in extensible.h) -/

inductive SerializeFormat where
  | FORMAT_USER
  | FORMAT_INTERNAL
  | FORMAT_NETWORK
  | FORMAT_PERSIST
deriving DecidableEq

/-- Model of `value.substr(0, delim)` where `delim` came from `find_first_of(' ')`:
`substr(0, npos)` is the whole string. -/
def substrTo (value : List Char) : Option Nat → List Char
  | none => value
  | some d => value.take d

/-- The boolean the `TSBoolExtItem` decoder reads from the value segment:
absent delimiter gives `false`, otherwise `value.substr(delim + 1)[0] == '1'`
(where indexing an empty `std::string` at 0 reads the null character, hence
`false` for a trailing-space payload). -/
def boolSegment (value : List Char) : Option Nat → Bool
  | none => false
  | some d =>
    match value.drop (d + 1) with
    | c :: _ => c == '1'
    | [] => false

/-- The integer the `TSIntExtItem` decoder reads from the value segment:
absent delimiter falls back to the item's declared default. -/
def intSegment (default_value : Int) (value : List Char) : Option Nat → Int
  | none => default_value
  | some d => atoi (value.drop (d + 1))

/-- The string the `TSStringExtItem` decoder reads from the value segment:
absent delimiter gives the empty string. -/
def stringSegment (value : List Char) : Option Nat → List Char
  | none => []
  | some d => value.drop (d + 1)

/- ### The four extension-item codecs of account.h, translated member for member.
The stored slot (`SimpleExtItem` storage) is passed in and returned explicitly;
`get` returning a null pointer is `none`, and `set` is returning a `some`. -/

/-- Translation of `TSExtItem::serialize`: an unset slot (null item pointer — not a zero
timestamp) serializes to the empty string, otherwise `ConvToStr(*ts)`. -/
def TSExtItem.serialize (_format : SerializeFormat) (item : Option Int) : List Char :=
  match item with
  | none => []
  | some ts => convToStr ts

/-- Translation of `TSExtItem::unserialize`: `theirs = atol(value)`; replace when no value is
stored or `theirs` is strictly greater. -/
def TSExtItem.unserialize (_format : SerializeFormat) (ours : Option Int)
    (value : List Char) : Option Int :=
  let theirs := atol value
  match ours with
  | none => some theirs
  | some cur => if theirs > cur then some theirs else some cur

/-- Translation of `TSBoolExtItem::serialize`. -/
def TSBoolExtItem.serialize (format : SerializeFormat) (item : Option (Int × Bool)) :
    List Char :=
  match item with
  | none => []
  | some p =>
    convToStr p.1 ++ (if format = SerializeFormat.FORMAT_NETWORK then [' ', ':'] else [' ']) ++
      [if p.2 then '1' else '0']

/-- Translation of `TSBoolExtItem::unserialize`. -/
def TSBoolExtItem.unserialize (_format : SerializeFormat) (p : Option (Int × Bool))
    (value : List Char) : Option (Int × Bool) :=
  let delim := find_first_of_space value
  let ts : Int := atol (substrTo value delim)
  let item : Bool := boolSegment value delim
  match p with
  | none => some (ts, item)
  | some q => if ts > q.1 then some (ts, item) else some q

/-- Translation of `TSIntExtItem::serialize`. -/
def TSIntExtItem.serialize (format : SerializeFormat) (item : Option (Int × Int)) :
    List Char :=
  match item with
  | none => []
  | some p =>
    convToStr p.1 ++ (if format = SerializeFormat.FORMAT_NETWORK then [' ', ':'] else [' ']) ++
      convToStr p.2

/-- Translation of `TSIntExtItem::unserialize`; `default_value` is the item's constructor field. -/
def TSIntExtItem.unserialize (_format : SerializeFormat) (default_value : Int)
    (p : Option (Int × Int)) (value : List Char) : Option (Int × Int) :=
  let delim := find_first_of_space value
  let ts : Int := atol (substrTo value delim)
  let item : Int := intSegment default_value value delim
  match p with
  | none => some (ts, item)
  | some q => if ts > q.1 then some (ts, item) else some q

/-- Translation of `TSStringExtItem::serialize`. -/
def TSStringExtItem.serialize (format : SerializeFormat) (item : Option (Int × List Char)) :
    List Char :=
  match item with
  | none => []
  | some p =>
    convToStr p.1 ++ (if format = SerializeFormat.FORMAT_NETWORK then [' ', ':'] else [' ']) ++
      p.2

/-- Translation of `TSStringExtItem::unserialize`. -/
def TSStringExtItem.unserialize (_format : SerializeFormat) (p : Option (Int × List Char))
    (value : List Char) : Option (Int × List Char) :=
  let delim := find_first_of_space value
  let ts : Int := atol (substrTo value delim)
  let item : List Char := stringSegment value delim
  match p with
  | none => some (ts, item)
  | some q => if ts > q.1 then some (ts, item) else some q

/- ### Spec-side views of the wire line -/

/-- The timestamp decoded from a wire line by the pair-valued codecs:
`atol` of the text before the first space. -/
def wireTS (value : List Char) : Int := atol (substrTo value (find_first_of_space value))

/-- The boolean payload decoded from a wire line. -/
def boolItemOf (value : List Char) : Bool := boolSegment value (find_first_of_space value)

/-- The integer payload decoded from a wire line (given the declared default). -/
def intItemOf (default_value : Int) (value : List Char) : Int :=
  intSegment default_value value (find_first_of_space value)

/-- The string payload decoded from a wire line. -/
def stringItemOf (value : List Char) : List Char :=
  stringSegment value (find_first_of_space value)

/-- The spec's merge guard: replace exactly when no value is stored or the
incoming timestamp is strictly greater than the stored one. -/
def shouldReplace (stored : Option Int) (incoming : Int) : Bool :=
  match stored with
  | none => true
  | some cur => decide (cur < incoming)

/- ### Characterizing the four merges through the spec's guard -/

theorem tsItem_unserialize_eq (format : SerializeFormat) (ours : Option Int)
    (value : List Char) :
    TSExtItem.unserialize format ours value =
      if shouldReplace ours (atol value) then some (atol value) else ours := by
  cases ours with
  | none => rfl
  | some cur =>
    simp only [TSExtItem.unserialize, shouldReplace, gt_iff_lt]
    by_cases h : cur < atol value
    · simp [h]
    · simp [h]

theorem boolItem_unserialize_eq (format : SerializeFormat) (p : Option (Int × Bool))
    (value : List Char) :
    TSBoolExtItem.unserialize format p value =
      if shouldReplace (p.map Prod.fst) (wireTS value) then
        some (wireTS value, boolItemOf value)
      else p := by
  cases p with
  | none => rfl
  | some q =>
    simp only [TSBoolExtItem.unserialize, shouldReplace, Option.map_some', gt_iff_lt,
      wireTS, boolItemOf]
    by_cases h : q.1 < atol (substrTo value (find_first_of_space value))
    · simp [h]
    · simp [h]

theorem intItem_unserialize_eq (format : SerializeFormat) (d : Int) (p : Option (Int × Int))
    (value : List Char) :
    TSIntExtItem.unserialize format d p value =
      if shouldReplace (p.map Prod.fst) (wireTS value) then
        some (wireTS value, intItemOf d value)
      else p := by
  cases p with
  | none => rfl
  | some q =>
    simp only [TSIntExtItem.unserialize, shouldReplace, Option.map_some', gt_iff_lt,
      wireTS, intItemOf]
    by_cases h : q.1 < atol (substrTo value (find_first_of_space value))
    · simp [h]
    · simp [h]

theorem stringItem_unserialize_eq (format : SerializeFormat) (p : Option (Int × List Char))
    (value : List Char) :
    TSStringExtItem.unserialize format p value =
      if shouldReplace (p.map Prod.fst) (wireTS value) then
        some (wireTS value, stringItemOf value)
      else p := by
  cases p with
  | none => rfl
  | some q =>
    simp only [TSStringExtItem.unserialize, shouldReplace, Option.map_some', gt_iff_lt,
      wireTS, stringItemOf]
    by_cases h : q.1 < atol (substrTo value (find_first_of_space value))
    · simp [h]
    · simp [h]

/-- C1: for every field variant (timestamp-only, boolean, integer, string), every
stored slot state and every incoming serialized update, `unserialize` replaces the
stored (timestamp, value) pair exactly when no value is currently stored or the
decoded incoming timestamp is strictly greater than the stored one; in every other
case the stored state is left unchanged (merging is a total function — there is no
error path). -/
theorem unserialize_lww_rule :
    ∀ (format : SerializeFormat) (d : Int) (pT : Option Int) (pB : Option (Int × Bool))
      (pI : Option (Int × Int)) (pS : Option (Int × List Char)) (value : List Char),
    (TSExtItem.unserialize format pT value
       = if shouldReplace pT (atol value) then some (atol value) else pT)
    ∧ (TSBoolExtItem.unserialize format pB value
       = if shouldReplace (pB.map Prod.fst) (wireTS value) then
           some (wireTS value, boolItemOf value)
         else pB)
    ∧ (TSIntExtItem.unserialize format d pI value
       = if shouldReplace (pI.map Prod.fst) (wireTS value) then
           some (wireTS value, intItemOf d value)
         else pI)
    ∧ (TSStringExtItem.unserialize format pS value
       = if shouldReplace (pS.map Prod.fst) (wireTS value) then
           some (wireTS value, stringItemOf value)
         else pS) :=
  fun format d pT pB pI pS value =>
    ⟨tsItem_unserialize_eq format pT value, boolItem_unserialize_eq format pB value,
     intItem_unserialize_eq format d pI value, stringItem_unserialize_eq format pS value⟩

/- ### Idempotence of a single merge -/

theorem shouldReplace_self (t : Int) : shouldReplace (some t) t = false := by
  simp [shouldReplace]

theorem pairMerge_idem {α : Type} (p : Option (Int × α)) (t : Int) (v : α) :
    (if shouldReplace ((if shouldReplace (p.map Prod.fst) t then some (t, v) else p).map
        Prod.fst) t then
       some (t, v)
     else if shouldReplace (p.map Prod.fst) t then some (t, v) else p)
    = if shouldReplace (p.map Prod.fst) t then some (t, v) else p := by
  by_cases h : shouldReplace (p.map Prod.fst) t = true
  · simp [h, shouldReplace_self]
  · simp [Bool.not_eq_true] at h
    simp [h]

theorem tsMerge_idem (p : Option Int) (t : Int) :
    (if shouldReplace (if shouldReplace p t then some t else p) t then some t
     else if shouldReplace p t then some t else p)
    = if shouldReplace p t then some t else p := by
  by_cases h : shouldReplace p t = true
  · simp [h, shouldReplace_self]
  · simp [Bool.not_eq_true] at h
    simp [h]

/-- C4: applying the same update line twice in immediate succession yields a
state identical to applying it once, for every field variant and every starting
slot state — field merge is idempotent. -/
theorem unserialize_idempotent :
    ∀ (format : SerializeFormat) (d : Int) (pT : Option Int) (pB : Option (Int × Bool))
      (pI : Option (Int × Int)) (pS : Option (Int × List Char)) (u : List Char),
    TSExtItem.unserialize format (TSExtItem.unserialize format pT u) u
      = TSExtItem.unserialize format pT u
    ∧ TSBoolExtItem.unserialize format (TSBoolExtItem.unserialize format pB u) u
      = TSBoolExtItem.unserialize format pB u
    ∧ TSIntExtItem.unserialize format d (TSIntExtItem.unserialize format d pI u) u
      = TSIntExtItem.unserialize format d pI u
    ∧ TSStringExtItem.unserialize format (TSStringExtItem.unserialize format pS u) u
      = TSStringExtItem.unserialize format pS u := by
  intro format d pT pB pI pS u
  refine ⟨?_, ?_, ?_, ?_⟩
  · rw [tsItem_unserialize_eq, tsItem_unserialize_eq]
    exact tsMerge_idem pT (atol u)
  · rw [boolItem_unserialize_eq, boolItem_unserialize_eq]
    exact pairMerge_idem pB (wireTS u) (boolItemOf u)
  · rw [intItem_unserialize_eq, intItem_unserialize_eq]
    exact pairMerge_idem pI (wireTS u) (intItemOf d u)
  · rw [stringItem_unserialize_eq, stringItem_unserialize_eq]
    exact pairMerge_idem pS (wireTS u) (stringItemOf u)

/- ### The serialized header `<timestamp><space>...` decodes back to the timestamp -/

theorem find_first_of_space_append (l r : List Char) (h : ∀ c ∈ l, (c == ' ') = false) :
    find_first_of_space (l ++ ' ' :: r) = some l.length := by
  induction l with
  | nil => simp [find_first_of_space]
  | cons c cs ih =>
    have hc := h c (List.mem_cons_self _ _)
    simp only [List.cons_append, find_first_of_space, hc, Bool.false_eq_true, if_false,
      List.append_eq]
    rw [ih (fun x hx => h x (List.mem_cons_of_mem _ hx))]
    simp

theorem take_len_append (l r : List Char) : (l ++ r).take l.length = l := by
  induction l with
  | nil => rfl
  | cons c cs ih => simp only [List.cons_append, List.length_cons, List.take_succ_cons, ih]

theorem drop_len_succ_append (l : List Char) (c : Char) (r : List Char) :
    (l ++ c :: r).drop (l.length + 1) = r := by
  induction l with
  | nil => rfl
  | cons x xs ih => simp [ih]

theorem convToStr_no_space (i : Int) : ∀ c ∈ convToStr i, (c == ' ') = false := by
  intro c hc
  rw [convToStr] at hc
  split at hc
  · rcases List.mem_cons.mp hc with h1 | h2
    · subst h1; decide
    · simp only [natToDigits, List.mem_reverse] at h2
      exact beq_space_eq_false_of_isDigitC (mem_natDigitsRev h2)
  · simp only [natToDigits, List.mem_reverse] at hc
    exact beq_space_eq_false_of_isDigitC (mem_natDigitsRev hc)

theorem wireTS_header (t : Int) (rest : List Char) :
    wireTS (convToStr t ++ ' ' :: rest) = t := by
  rw [wireTS, find_first_of_space_append _ _ (convToStr_no_space t)]
  rw [substrTo, take_len_append]
  exact atol_convToStr t

/- ### Re-merging a state's own serialization leaves it unchanged -/

theorem tsItem_remerge (f g : SerializeFormat) (t : Int) :
    TSExtItem.unserialize g (some t) (TSExtItem.serialize f (some t)) = some t := by
  show TSExtItem.unserialize g (some t) (convToStr t) = some t
  rw [tsItem_unserialize_eq, atol_convToStr, shouldReplace_self]
  simp

theorem boolItem_remerge (f g : SerializeFormat) (t : Int) (b : Bool) :
    TSBoolExtItem.unserialize g (some (t, b)) (TSBoolExtItem.serialize f (some (t, b)))
      = some (t, b) := by
  rw [boolItem_unserialize_eq]
  have hw : wireTS (TSBoolExtItem.serialize f (some (t, b))) = t := by
    rw [TSBoolExtItem.serialize]
    by_cases h : f = SerializeFormat.FORMAT_NETWORK
    · rw [if_pos h, List.append_assoc]
      exact wireTS_header t (':' :: [if b then '1' else '0'])
    · rw [if_neg h, List.append_assoc]
      exact wireTS_header t [if b then '1' else '0']
  simp [hw, shouldReplace_self]

theorem intItem_remerge (f g : SerializeFormat) (d t v : Int) :
    TSIntExtItem.unserialize g d (some (t, v)) (TSIntExtItem.serialize f (some (t, v)))
      = some (t, v) := by
  rw [intItem_unserialize_eq]
  have hw : wireTS (TSIntExtItem.serialize f (some (t, v))) = t := by
    rw [TSIntExtItem.serialize]
    by_cases h : f = SerializeFormat.FORMAT_NETWORK
    · rw [if_pos h, List.append_assoc]
      exact wireTS_header t (':' :: convToStr v)
    · rw [if_neg h, List.append_assoc]
      exact wireTS_header t (convToStr v)
  simp [hw, shouldReplace_self]

theorem stringItem_remerge (f g : SerializeFormat) (t : Int) (s : List Char) :
    TSStringExtItem.unserialize g (some (t, s)) (TSStringExtItem.serialize f (some (t, s)))
      = some (t, s) := by
  rw [stringItem_unserialize_eq]
  have hw : wireTS (TSStringExtItem.serialize f (some (t, s))) = t := by
    rw [TSStringExtItem.serialize]
    by_cases h : f = SerializeFormat.FORMAT_NETWORK
    · rw [if_pos h, List.append_assoc]
      exact wireTS_header t (':' :: s)
    · rw [if_neg h, List.append_assoc]
      exact wireTS_header t s
  simp [hw, shouldReplace_self]

/-- C5: for every field variant, declared default, and raw wire line, serializing
the state obtained by merging the line into an empty slot produces a line that,
merged back onto that same resulting state (in either serialize format), leaves
the state unchanged — the serialized form of a merged value is a fixed point of
merge. -/
theorem serialize_merge_fixed_point :
    ∀ (f g : SerializeFormat) (d : Int) (value : List Char),
    TSExtItem.unserialize g (TSExtItem.unserialize g none value)
        (TSExtItem.serialize f (TSExtItem.unserialize g none value))
      = TSExtItem.unserialize g none value
    ∧ TSBoolExtItem.unserialize g (TSBoolExtItem.unserialize g none value)
        (TSBoolExtItem.serialize f (TSBoolExtItem.unserialize g none value))
      = TSBoolExtItem.unserialize g none value
    ∧ TSIntExtItem.unserialize g d (TSIntExtItem.unserialize g d none value)
        (TSIntExtItem.serialize f (TSIntExtItem.unserialize g d none value))
      = TSIntExtItem.unserialize g d none value
    ∧ TSStringExtItem.unserialize g (TSStringExtItem.unserialize g none value)
        (TSStringExtItem.serialize f (TSStringExtItem.unserialize g none value))
      = TSStringExtItem.unserialize g none value := by
  intro f g d value
  refine ⟨?_, ?_, ?_, ?_⟩
  · show TSExtItem.unserialize g (some (atol value))
        (TSExtItem.serialize f (some (atol value))) = some (atol value)
    exact tsItem_remerge f g (atol value)
  · show TSBoolExtItem.unserialize g (some (wireTS value, boolItemOf value))
        (TSBoolExtItem.serialize f (some (wireTS value, boolItemOf value)))
      = some (wireTS value, boolItemOf value)
    exact boolItem_remerge f g (wireTS value) (boolItemOf value)
  · show TSIntExtItem.unserialize g d (some (wireTS value, intItemOf d value))
        (TSIntExtItem.serialize f (some (wireTS value, intItemOf d value)))
      = some (wireTS value, intItemOf d value)
    exact intItem_remerge f g d (wireTS value) (intItemOf d value)
  · show TSStringExtItem.unserialize g (some (wireTS value, stringItemOf value))
        (TSStringExtItem.serialize f (some (wireTS value, stringItemOf value)))
      = some (wireTS value, stringItemOf value)
    exact stringItem_remerge f g (wireTS value) (stringItemOf value)

/- ### Convergence of two updates with ordered timestamps -/

theorem tsItem_merge_into_empty (format : SerializeFormat) (value : List Char) :
    TSExtItem.unserialize format none value = some (atol value) := rfl

theorem boolItem_merge_into_empty (format : SerializeFormat) (value : List Char) :
    TSBoolExtItem.unserialize format none value = some (wireTS value, boolItemOf value) := rfl

theorem intItem_merge_into_empty (format : SerializeFormat) (d : Int) (value : List Char) :
    TSIntExtItem.unserialize format d none value = some (wireTS value, intItemOf d value) := rfl

theorem stringItem_merge_into_empty (format : SerializeFormat) (value : List Char) :
    TSStringExtItem.unserialize format none value = some (wireTS value, stringItemOf value) :=
  rfl

/-- C3: on a slot starting absent, updates A (timestamp 10) and B (timestamp 20)
with distinct values converge to B's timestamp and value whether applied
[A, B] or [B, A]; in particular applying [A] alone and later [B] (the first
conjunct of each pair) also converges to B's value. Covers all four variants. -/
theorem lww_timestamp_order_convergence :
    ∀ (format : SerializeFormat) (d : Int) (a b : List Char),
    atol a = 10 → atol b = 20 → wireTS a = 10 → wireTS b = 20 →
    boolItemOf a ≠ boolItemOf b → intItemOf d a ≠ intItemOf d b →
    stringItemOf a ≠ stringItemOf b →
    (TSExtItem.unserialize format (TSExtItem.unserialize format none a) b = some 20
      ∧ TSExtItem.unserialize format (TSExtItem.unserialize format none b) a = some 20)
    ∧ (TSBoolExtItem.unserialize format (TSBoolExtItem.unserialize format none a) b
        = some (20, boolItemOf b)
      ∧ TSBoolExtItem.unserialize format (TSBoolExtItem.unserialize format none b) a
        = some (20, boolItemOf b))
    ∧ (TSIntExtItem.unserialize format d (TSIntExtItem.unserialize format d none a) b
        = some (20, intItemOf d b)
      ∧ TSIntExtItem.unserialize format d (TSIntExtItem.unserialize format d none b) a
        = some (20, intItemOf d b))
    ∧ (TSStringExtItem.unserialize format (TSStringExtItem.unserialize format none a) b
        = some (20, stringItemOf b)
      ∧ TSStringExtItem.unserialize format (TSStringExtItem.unserialize format none b) a
        = some (20, stringItemOf b)) := by
  intro format d a b ha hb hwa hwb _ _ _
  refine ⟨⟨?_, ?_⟩, ⟨?_, ?_⟩, ⟨?_, ?_⟩, ⟨?_, ?_⟩⟩
  · rw [tsItem_merge_into_empty, ha, tsItem_unserialize_eq, hb]
    norm_num [shouldReplace]
  · rw [tsItem_merge_into_empty, hb, tsItem_unserialize_eq, ha]
    norm_num [shouldReplace]
  · rw [boolItem_merge_into_empty, hwa, boolItem_unserialize_eq, hwb]
    norm_num [shouldReplace]
  · rw [boolItem_merge_into_empty, hwb, boolItem_unserialize_eq, hwa]
    norm_num [shouldReplace]
  · rw [intItem_merge_into_empty, hwa, intItem_unserialize_eq, hwb]
    norm_num [shouldReplace]
  · rw [intItem_merge_into_empty, hwb, intItem_unserialize_eq, hwa]
    norm_num [shouldReplace]
  · rw [stringItem_merge_into_empty, hwa, stringItem_unserialize_eq, hwb]
    norm_num [shouldReplace]
  · rw [stringItem_merge_into_empty, hwb, stringItem_unserialize_eq, hwa]
    norm_num [shouldReplace]

/-- Witness for C3 at the concrete updates "10 0" and "20 1". -/
theorem lww_timestamp_order_convergence_witness :
    TSStringExtItem.unserialize SerializeFormat.FORMAT_INTERNAL
        (TSStringExtItem.unserialize SerializeFormat.FORMAT_INTERNAL none
          ['1', '0', ' ', '0'])
        ['2', '0', ' ', '1'] = some (20, stringItemOf ['2', '0', ' ', '1'])
    ∧ TSStringExtItem.unserialize SerializeFormat.FORMAT_INTERNAL
        (TSStringExtItem.unserialize SerializeFormat.FORMAT_INTERNAL none
          ['2', '0', ' ', '1'])
        ['1', '0', ' ', '0'] = some (20, stringItemOf ['2', '0', ' ', '1']) :=
  (lww_timestamp_order_convergence SerializeFormat.FORMAT_INTERNAL 0
    ['1', '0', ' ', '0'] ['2', '0', ' ', '1'] (by decide) (by decide) (by decide)
    (by decide) (by decide) (by decide) (by decide)).2.2.2

/-- C6: for the integer variant, a wire payload with no space delimiter is not
rejected: the timestamp is still decoded from the whole string and, when the
merge guard admits it, the slot is set to that timestamp paired with the
declared default. -/
theorem int_missing_value_falls_back_to_default :
    ∀ (format : SerializeFormat) (d : Int) (p : Option (Int × Int)) (value : List Char),
    find_first_of_space value = none →
    TSIntExtItem.unserialize format d p value
      = if shouldReplace (p.map Prod.fst) (atol value) then some (atol value, d) else p := by
  intro format d p value hnone
  have h1 : wireTS value = atol value := by rw [wireTS, hnone, substrTo]
  have h2 : intItemOf d value = d := by rw [intItemOf, hnone, intSegment]
  rw [intItem_unserialize_eq, h1, h2]

/-- Witness for C6: the delimiter-free payload "5" with default 42 lands as
(5, 42) in an empty slot. -/
theorem int_missing_value_falls_back_to_default_witness :
    TSIntExtItem.unserialize SerializeFormat.FORMAT_INTERNAL 42 none ['5'] = some (5, 42) :=
  (int_missing_value_falls_back_to_default SerializeFormat.FORMAT_INTERNAL 42 none ['5']
    (by decide)).trans (by decide)

theorem convToStr_ne_nil (i : Int) : convToStr i ≠ [] := by
  rw [convToStr]
  split
  · simp
  · simp [natToDigits, List.reverse_eq_nil_iff, natDigitsRev_ne_nil]

/-- C9: the timestamp-only variant serializes to the empty string exactly when
the slot holds no timestamp (a null item pointer); a stored timestamp 0
serializes to "0", so absence and a zero timestamp stay distinguishable. -/
theorem tsItem_serialize_empty_iff_absent :
    ∀ (format : SerializeFormat) (item : Option Int),
    (TSExtItem.serialize format item = [] ↔ item = none)
    ∧ TSExtItem.serialize format (some 0) = ['0'] := by
  intro format item
  refine ⟨⟨?_, ?_⟩, ?_⟩
  · intro h
    cases item with
    | none => rfl
    | some ts => exact absurd h (convToStr_ne_nil ts)
  · intro h
    subst h
    rfl
  · show convToStr 0 = ['0']
    rw [convToStr, if_neg (by norm_num)]
    show (natDigitsRev 0).reverse = ['0']
    rw [natDigitsRev]
    norm_num
    decide

/-- C10: for the boolean variant, whenever the payload has a space-delimited
value segment, the stored boolean decodes to true exactly when the first
character of that segment is '1'; any other segment (including an empty one or
a network-format segment starting with ':') decodes to false. -/
theorem bool_decode_first_char_is_one :
    ∀ (format : SerializeFormat) (value : List Char) (d : Nat),
    find_first_of_space value = some d →
    TSBoolExtItem.unserialize format none value = some (wireTS value, boolItemOf value)
    ∧ (boolItemOf value = true ↔ (value.drop (d + 1)).head? = some '1') := by
  intro format value d hd
  refine ⟨rfl, ?_⟩
  rw [boolItemOf, hd, boolSegment]
  cases h : value.drop (d + 1) with
  | nil => simp
  | cons c cs => simp [List.head?, beq_iff_eq]

/-- Witness for C10: the network-format payload "5 :1" has its value segment
starting with ':' and decodes to false. -/
theorem bool_decode_first_char_is_one_witness :
    TSBoolExtItem.unserialize SerializeFormat.FORMAT_NETWORK none ['5', ' ', ':', '1']
        = some (wireTS ['5', ' ', ':', '1'], boolItemOf ['5', ' ', ':', '1'])
    ∧ (boolItemOf ['5', ' ', ':', '1'] = true
        ↔ (List.drop (1 + 1) ['5', ' ', ':', '1']).head? = some '1') :=
  bool_decode_first_char_is_one SerializeFormat.FORMAT_NETWORK ['5', ' ', ':', '1'] 1
    (by decide)

/-- C2 counterexample: unserializing the empty string onto a slot with no stored
value does not leave the slot absent — every variant stores timestamp 0 with its
type's fallback value. -/
theorem empty_line_resurrects_slot :
    TSExtItem.unserialize SerializeFormat.FORMAT_INTERNAL none [] = some 0
    ∧ TSBoolExtItem.unserialize SerializeFormat.FORMAT_INTERNAL none [] = some (0, false)
    ∧ TSIntExtItem.unserialize SerializeFormat.FORMAT_INTERNAL 7 none [] = some (0, 7)
    ∧ TSStringExtItem.unserialize SerializeFormat.FORMAT_INTERNAL none [] = some (0, [])
    ∧ some (0 : Int) ≠ (none : Option Int) :=
  ⟨rfl, rfl, rfl, rfl, by decide⟩

/-- C2 as amended: a never-set slot serializes to the empty string in every
variant; unserializing the empty string onto an empty slot stores timestamp 0
with the type's fallback value (timestamp 0 alone / false / the declared
default / the empty string) rather than leaving the slot absent. -/
theorem serialize_absent_empty_remerge_stores_zero :
    ∀ (format : SerializeFormat) (d : Int),
    TSExtItem.serialize format none = []
    ∧ TSBoolExtItem.serialize format none = []
    ∧ TSIntExtItem.serialize format none = []
    ∧ TSStringExtItem.serialize format none = []
    ∧ TSExtItem.unserialize format none [] = some 0
    ∧ TSBoolExtItem.unserialize format none [] = some (0, false)
    ∧ TSIntExtItem.unserialize format d none [] = some (0, d)
    ∧ TSStringExtItem.unserialize format none [] = some (0, []) :=
  fun _ _ => ⟨rfl, rfl, rfl, rfl, rfl, rfl, rfl, rfl⟩

/- ### The account record and database -/

/-- Translation of `AccountDBEntry` (account.h lines 51-63): `name` and `ts` are `const`
members fixed by the constructor; the hash/password/connect-class members and
their timestamps are mutable. `Extensible` storage is modelled as one
association list per extension-item shape — distinct `ExtensionItem` keys own
disjoint typed slots. -/
structure AccountDBEntry where
  name : List Char
  ts : Int
  hash_password_ts : Int
  connectclass_ts : Int
  hash : List Char
  password : List Char
  connectclass : List Char
  tsExts : List (List Char × Int)
  boolExts : List (List Char × (Int × Bool))
  intExts : List (List Char × (Int × Int))
  stringExts : List (List Char × (Int × List Char))
deriving DecidableEq

/-- The `AccountDBEntry` constructor (account.h line 58), with empty extension
storage. -/
def mkAccountDBEntry (nameref : List Char) (ourTS : Int) (h p : List Char)
    (h_p_ts : Int) (cc : List Char) (cc_ts : Int) : AccountDBEntry :=
  ⟨nameref, ourTS, h_p_ts, cc_ts, h, p, cc, [], [], [], []⟩

/-- Model of `Extensible` lookup for one typed extension key: the stored value, or
`none` for a null pointer (slot never set). -/
def extGet {α : Type} : List (List Char × α) → List Char → Option α
  | [], _ => none
  | (k, v) :: rest, key => if k == key then some v else extGet rest key

/-- Model of `Extensible` store for one typed extension key: overwrite the slot or add
it. -/
def extSet {α : Type} : List (List Char × α) → List Char → α → List (List Char × α)
  | [], key, v => [(key, v)]
  | (k, w) :: rest, key, v =>
    if k == key then (key, v) :: rest else (k, w) :: extSet rest key v

/-- Translation of `TSExtItem::unserialize` acting on an account record as its container: the
merged slot (the merge always yields a stored value) is written back through
`set`. -/
def AccountDBEntry.unserializeTSExt (e : AccountDBEntry) (key : List Char)
    (format : SerializeFormat) (value : List Char) : AccountDBEntry :=
  match TSExtItem.unserialize format (extGet e.tsExts key) value with
  | some v => { e with tsExts := extSet e.tsExts key v }
  | none => e

/-- Translation of `TSBoolExtItem::unserialize` acting on an account record as its container. -/
def AccountDBEntry.unserializeBoolExt (e : AccountDBEntry) (key : List Char)
    (format : SerializeFormat) (value : List Char) : AccountDBEntry :=
  match TSBoolExtItem.unserialize format (extGet e.boolExts key) value with
  | some v => { e with boolExts := extSet e.boolExts key v }
  | none => e

/-- Translation of `TSIntExtItem::unserialize` acting on an account record as its container. -/
def AccountDBEntry.unserializeIntExt (e : AccountDBEntry) (key : List Char)
    (format : SerializeFormat) (d : Int) (value : List Char) : AccountDBEntry :=
  match TSIntExtItem.unserialize format d (extGet e.intExts key) value with
  | some v => { e with intExts := extSet e.intExts key v }
  | none => e

/-- Translation of `TSStringExtItem::unserialize` acting on an account record as its container. -/
def AccountDBEntry.unserializeStringExt (e : AccountDBEntry) (key : List Char)
    (format : SerializeFormat) (value : List Char) : AccountDBEntry :=
  match TSStringExtItem.unserialize format (extGet e.stringExts key) value with
  | some v => { e with stringExts := extSet e.stringExts key v }
  | none => e

/-- Modelled from the spec: the explicit field-set call updating the
hash/password pair and their shared timestamp. The callers live in modules
outside these sources; per the spec they mutate only these members. -/
def AccountDBEntry.setHashPassword (e : AccountDBEntry) (h p : List Char)
    (h_p_ts : Int) : AccountDBEntry :=
  { e with hash := h, password := p, hash_password_ts := h_p_ts }

/-- Modelled from the spec: the explicit field-set call updating the connect
class and its timestamp. -/
def AccountDBEntry.setConnectClass (e : AccountDBEntry) (cc : List Char)
    (cc_ts : Int) : AccountDBEntry :=
  { e with connectclass := cc, connectclass_ts := cc_ts }

/-- C8: the account name and creation timestamp are those given to the
constructor and are unchanged by every subsequent operation on the record: the
four extension-field merges and the field-set calls modify only the
hash/password/connect-class values, their timestamps, and extension storage. -/
theorem name_ts_immutable :
    ∀ (e : AccountDBEntry) (key : List Char) (format : SerializeFormat)
      (value : List Char) (n h p cc : List Char) (t hpts ccts d : Int),
    ((mkAccountDBEntry n t h p hpts cc ccts).name = n
      ∧ (mkAccountDBEntry n t h p hpts cc ccts).ts = t)
    ∧ ((e.unserializeTSExt key format value).name = e.name
      ∧ (e.unserializeTSExt key format value).ts = e.ts)
    ∧ ((e.unserializeBoolExt key format value).name = e.name
      ∧ (e.unserializeBoolExt key format value).ts = e.ts)
    ∧ ((e.unserializeIntExt key format d value).name = e.name
      ∧ (e.unserializeIntExt key format d value).ts = e.ts)
    ∧ ((e.unserializeStringExt key format value).name = e.name
      ∧ (e.unserializeStringExt key format value).ts = e.ts)
    ∧ ((e.setHashPassword h p hpts).name = e.name
      ∧ (e.setHashPassword h p hpts).ts = e.ts)
    ∧ ((e.setConnectClass cc ccts).name = e.name
      ∧ (e.setConnectClass cc ccts).ts = e.ts) := by
  intro e key format value n h p cc t hpts ccts d
  refine ⟨⟨rfl, rfl⟩, ?_, ?_, ?_, ?_, ⟨rfl, rfl⟩, ⟨rfl, rfl⟩⟩
  · unfold AccountDBEntry.unserializeTSExt
    constructor <;> (split <;> rfl)
  · unfold AccountDBEntry.unserializeBoolExt
    constructor <;> (split <;> rfl)
  · unfold AccountDBEntry.unserializeIntExt
    constructor <;> (split <;> rfl)
  · unfold AccountDBEntry.unserializeStringExt
    constructor <;> (split <;> rfl)

/-- Model of `AccountDB` (`std::map<irc::string, AccountDBEntry*>`), an
association list from name to record. (`irc::string`'s case-insensitive
mapping plays no role in the claims settled here, so names are compared as
plain strings.) -/
def AccountDB := List (List Char × AccountDBEntry)

/-- Map lookup in the account database. -/
def dbFind (db : AccountDB) (nameref : List Char) : Option AccountDBEntry :=
  extGet db nameref

/-- Modelled from the spec: `AccountDBProvider::AddAccount` is pure virtual in
account.h (its implementation lives in a module outside these sources). Per its
doc comment and the spec it returns a pointer to a freshly constructed account
added under `nameref` on success, and NULL with no mutation when an account
with the same name already exists. The `send` flag only triggers the outbound
notification and does not affect the database contents. -/
def AddAccount (db : AccountDB) (_send : Bool) (nameref : List Char) (ourTS : Int)
    (h p : List Char) (h_p_ts : Int) (cc : List Char) (cc_ts : Int) :
    Option AccountDBEntry × AccountDB :=
  match dbFind db nameref with
  | some _ => (none, db)
  | none =>
    let entry := mkAccountDBEntry nameref ourTS h p h_p_ts cc cc_ts
    (some entry, (nameref, entry) :: db)

/-- C7: `AddAccount` returns NULL and leaves the database untouched when the
name is already present; otherwise it returns a newly created record, added to
the database under that name. -/
theorem addAccount_conflict_or_insert :
    ∀ (db : AccountDB) (send : Bool) (nameref : List Char) (ourTS : Int)
      (h p : List Char) (hpts : Int) (cc : List Char) (ccts : Int),
    (dbFind db nameref ≠ none →
      AddAccount db send nameref ourTS h p hpts cc ccts = (none, db))
    ∧ (dbFind db nameref = none →
      AddAccount db send nameref ourTS h p hpts cc ccts
        = (some (mkAccountDBEntry nameref ourTS h p hpts cc ccts),
           (nameref, mkAccountDBEntry nameref ourTS h p hpts cc ccts) :: db)
      ∧ dbFind ((nameref, mkAccountDBEntry nameref ourTS h p hpts cc ccts) :: db) nameref
        = some (mkAccountDBEntry nameref ourTS h p hpts cc ccts)
      ∧ (mkAccountDBEntry nameref ourTS h p hpts cc ccts).name = nameref) := by
  intro db send nameref ourTS h p hpts cc ccts
  constructor
  · intro hne
    unfold AddAccount
    cases hfind : dbFind db nameref with
    | none => exact absurd hfind hne
    | some e => rfl
  · intro hnone
    unfold AddAccount
    rw [hnone]
    refine ⟨rfl, ?_, rfl⟩
    simp [dbFind, extGet]

/-- Witness for C7: creating "bob" in an empty store succeeds; a second
creation of "bob" (even with a different creation timestamp) returns NULL and
leaves the store unchanged. -/
theorem addAccount_conflict_or_insert_witness :
    AddAccount [] true ['b', 'o', 'b'] 100 [] [] 0 [] 0
        = (some (mkAccountDBEntry ['b', 'o', 'b'] 100 [] [] 0 [] 0),
           [(['b', 'o', 'b'], mkAccountDBEntry ['b', 'o', 'b'] 100 [] [] 0 [] 0)])
    ∧ AddAccount [(['b', 'o', 'b'], mkAccountDBEntry ['b', 'o', 'b'] 100 [] [] 0 [] 0)]
        true ['b', 'o', 'b'] 50 [] [] 0 [] 0
        = (none, [(['b', 'o', 'b'], mkAccountDBEntry ['b', 'o', 'b'] 100 [] [] 0 [] 0)]) :=
  ⟨((addAccount_conflict_or_insert [] true ['b', 'o', 'b'] 100 [] [] 0 [] 0).2 rfl).1,
   (addAccount_conflict_or_insert
      [(['b', 'o', 'b'], mkAccountDBEntry ['b', 'o', 'b'] 100 [] [] 0 [] 0)]
      true ['b', 'o', 'b'] 50 [] [] 0 [] 0).1 (by decide)⟩
